import Mathlib

/-!
# A shallow embedding of the torch-kalman filtering core

The definitions below are translated from `torch_kalman/kalman_filter.py`
(the `KalmanFilter` orchestrator: `forward`, `forecast`, `simulate`) and
`torch_kalman/process/base.py` (the `Process` lifecycle and validation).

Components of the repository that those files call but whose sources are not
available here (the `Design` aggregate, the Gaussian `StateBelief` family, the
design-matrix module, `StateBeliefOverTime`) are modelled from the
specification; each such definition carries a doc comment starting
`Modelled from the spec:`.
-/

namespace TorchKalman

/-- One timestep's observation slice `input[:, t, :]`:
group index → measure index → value. -/
abbrev GroupObs : Type := Nat → Nat → ℚ

/-- The 3-d input tensor of shape `[groups, timesteps, measures]`
(`num_groups, num_timesteps, num_measures = input.shape`). -/
structure Tensor3 where
  num_groups : Nat
  num_timesteps : Nat
  num_measures : Nat
  data : Nat → Nat → Nat → ℚ

/-- The slice `input[:, t, :]` passed to `update` in the filtering loop. -/
def Tensor3.sliceAt (input : Tensor3) (t : Nat) : GroupObs :=
  fun g m => input.data g t m

/-- Modelled from the spec: the design-for-batch object produced by
`Design.for_batch` holds the concatenated-over-time tensors `F[t]`, `Q[t]`,
`H[t]`, `R[t]` plus the initial state for the batch.
`get_block_diag_initial_state`, applied to `num_groups`, yields the
family-constructed initial state belief for that many groups.
`B` is the state-belief type, `M` the batched-matrix type. -/
structure DesignForBatch (B M : Type) where
  F : Nat → M
  Q : Nat → M
  H : Nat → M
  R : Nat → M
  get_block_diag_initial_state : Nat → B

/-- Modelled from the spec: the pluggable state-belief family (the source's
`self.family`, default Gaussian).  Beliefs support `update` (with an
observation slice), `predict` (with `F`, `Q`), `compute_measurement`
(with `H`, `R`, returning the belief with its measurement distribution
attached), are batched over groups (`batch_size`), and support `simulate`
(producing a sampled trajectory of type `S`). -/
structure Family (B M S : Type) where
  update : B → GroupObs → B
  predict : B → M → M → B
  compute_measurement : B → M → M → B
  batch_size : B → Nat
  simulate : B → DesignForBatch B M → S

/-- The errors raised by the orchestrator in `kalman_filter.py`:
the `ValueError` carrying the filter's measure-size and the offending input
shape (`forward`, lines 68-70), the `assert horizon > 0` failures
(`simulate` line 115, `forecast` line 136), and the indexing failure when a
seed belief is requested from an empty prior result. -/
inductive KFError where
  | value_error (measure_size : Nat) (shape : Nat × Nat × Nat)
  | assertion_error
  | index_error
  deriving DecidableEq

/-- The `KalmanFilter` orchestrator.  `measure_size` is `design.measure_size`.
Modelled from the spec: `design_for_batch` stands for
`self.design.for_batch(num_groups=·, num_timesteps=·, **kwargs)`; the claims
below always compare runs with identical user kwargs, so the kwargs are folded
into this function of the batch dimensions (per the spec, the design matrices
are built from the processes' assignments, parameters and the user-supplied
batch kwargs such as covariates). -/
structure KalmanFilter (B M S : Type) where
  family : Family B M S
  measure_size : Nat
  design_for_batch : Nat → Nat → DesignForBatch B M

/-- The initial state of the system (`forward`, lines 74-78): the provided
`initial_state` if any, otherwise the family-constructed
`design_for_batch.get_block_diag_initial_state(num_groups)`. -/
def KalmanFilter.forwardInit {B M S : Type} (kf : KalmanFilter B M S)
    (input : Tensor3) (initial_state : Option B) : B :=
  match initial_state with
  | none => (kf.design_for_batch input.num_groups input.num_timesteps).get_block_diag_initial_state
      input.num_groups
  | some s => s

/-- The body of the filtering loop (`forward`, lines 87-100), one iteration at
index `t`: if `t > 0`, update the carried prediction with the observation at
`t-1` and predict forward with `F[t-1]`, `Q[t-1]`; then compute the
measurement distribution with `H[t]`, `R[t]` and append the belief. -/
def KalmanFilter.forwardStep {B M S : Type} (fam : Family B M S)
    (d : DesignForBatch B M) (input : Tensor3)
    (acc : B × List B) (t : Nat) : B × List B :=
  let sp := if 0 < t then
      fam.predict (fam.update acc.1 (input.sliceAt (t - 1))) (d.F (t - 1)) (d.Q (t - 1))
    else acc.1
  let sp := fam.compute_measurement sp (d.H t) (d.R t)
  (sp, acc.2 ++ [sp])

/-- `KalmanFilter.forward` (lines 50-104): validates the measures dimension of
the input against the design's measure count, builds the batch design,
initializes the state, and runs the filtering loop over
`range(num_timesteps)`, returning the sequence of one-step-ahead beliefs. -/
def KalmanFilter.forward {B M S : Type} (kf : KalmanFilter B M S)
    (input : Tensor3) (initial_state : Option B) : Except KFError (List B) :=
  if input.num_measures ≠ kf.measure_size then
    Except.error (KFError.value_error kf.measure_size
      (input.num_groups, input.num_timesteps, input.num_measures))
  else
    let d := kf.design_for_batch input.num_groups input.num_timesteps
    Except.ok
      (((List.range input.num_timesteps).foldl
        (KalmanFilter.forwardStep kf.family d input)
        (kf.forwardInit input initial_state, [])).2)

/-- The closed-form recurrence for the belief appended at index `t` by the
filtering loop; used to characterize `forward`. -/
def beliefAt {B M S : Type} (fam : Family B M S) (d : DesignForBatch B M)
    (input : Tensor3) (init : B) : Nat → B
  | 0 => fam.compute_measurement init (d.H 0) (d.R 0)
  | t + 1 => fam.compute_measurement
      (fam.predict (fam.update (beliefAt fam d input init t) (input.sliceAt t))
        (d.F t) (d.Q t))
      (d.H (t + 1)) (d.R (t + 1))

/-- Modelled from the spec: a `forward` result — the ordered sequence of
per-timestep beliefs, with optional absolute-time indexing (`slice_by_dt`,
abstracted here as a selection function over requested datetimes). -/
structure StateBeliefOverTime (B : Type) where
  beliefs : List B
  slice_by_dt : List Nat → B

/-- Modelled from the spec: the seed used by `forecast`/`simulate` when no
datetimes are given is the last belief of the prior `forward` result. -/
def StateBeliefOverTime.last_prediction {B : Type} (s : StateBeliefOverTime B) :
    Option B :=
  s.beliefs.getLast?

/-- The body of the forecast loop (`forecast`, lines 155-165), one iteration
at index `t`: if `t > 0`, predict the carried belief forward with `F[t-1]`,
`Q[t-1]` (no update step); then compute the measurement distribution with
`H[t]`, `R[t]` and append. -/
def KalmanFilter.forecastStep {B M S : Type} (fam : Family B M S)
    (d : DesignForBatch B M) (acc : B × List B) (t : Nat) : B × List B :=
  let sp := if 0 < t then fam.predict acc.1 (d.F (t - 1)) (d.Q (t - 1)) else acc.1
  let sp := fam.compute_measurement sp (d.H t) (d.R t)
  (sp, acc.2 ++ [sp])

/-- `KalmanFilter.forecast` (lines 130-169): asserts `horizon > 0`, selects
the seed belief (the last prediction, or a datetime-selected one), builds the
batch design for `horizon` timesteps, and runs the forecast loop. -/
def KalmanFilter.forecast {B M S : Type} (kf : KalmanFilter B M S)
    (states : StateBeliefOverTime B) (horizon : Int)
    (forecast_from_datetimes : Option (List Nat)) : Except KFError (List B) :=
  if horizon ≤ 0 then Except.error KFError.assertion_error
  else
    let seed : Option B := match forecast_from_datetimes with
      | none => states.last_prediction
      | some dts => some (states.slice_by_dt dts)
    match seed with
    | none => Except.error KFError.index_error
    | some state_prediction =>
      let d := kf.design_for_batch (kf.family.batch_size state_prediction) horizon.toNat
      Except.ok
        (((List.range horizon.toNat).foldl
          (KalmanFilter.forecastStep kf.family d) (state_prediction, [])).2)

/-- The closed-form recurrence for the belief appended at index `t` by the
forecast loop. -/
def forecastAt {B M S : Type} (fam : Family B M S) (d : DesignForBatch B M)
    (seed : B) : Nat → B
  | 0 => fam.compute_measurement seed (d.H 0) (d.R 0)
  | t + 1 => fam.compute_measurement
      (fam.predict (forecastAt fam d seed t) (d.F t) (d.Q t))
      (d.H (t + 1)) (d.R (t + 1))

/-- `KalmanFilter.simulate` (lines 109-128): asserts `horizon > 0`, selects
the seed belief, builds the batch design for `horizon` timesteps with
`num_groups = initial_state.batch_size`, and delegates to the belief's
`simulate`. -/
def KalmanFilter.simulate {B M S : Type} (kf : KalmanFilter B M S)
    (states : StateBeliefOverTime B) (horizon : Int)
    (from_datetimes : Option (List Nat)) : Except KFError S :=
  if horizon ≤ 0 then Except.error KFError.assertion_error
  else
    let seed : Option B := match from_datetimes with
      | none => states.last_prediction
      | some dts => some (states.slice_by_dt dts)
    match seed with
    | none => Except.error KFError.index_error
    | some initial_state =>
      let d := kf.design_for_batch (kf.family.batch_size initial_state) horizon.toNat
      Except.ok (kf.family.simulate initial_state d)

/-- The structural errors raised by `process/base.py`: the `TypeError`s of
`for_batch` (no measures, no transitions) and `__init_subclass__` (implicit
kwargs, signature mismatch), the `ValueError`s of `_validate`, and the
`DuplicateAssignmentError` of design-matrix `assign`. -/
inductive PError where
  | no_measures (id : String)
  | no_transitions (id : String)
  | duplicate_state_elements
  | fixed_dynamic_overlap
  | duplicate_assignment (row col : String)
  | kwargs_not_explicit (cls : String)
  | signature_mismatch (cls : String)
  deriving DecidableEq

/-- Modelled from the spec: a design-matrix cell value — a constant or a bound
parameter reference.  The parameter handle is opaque to the core; its index
and currently-read value are recorded. -/
inductive DesignMatAssignment where
  | constant (value : ℚ)
  | parameter (index : Nat) (value : ℚ)
  deriving DecidableEq

/-- Modelled from the spec: an inverse-link transform, as a small closed set
of tagged variants. -/
inductive ILink where
  | identity
  | exponential
  | custom (index : Nat)
  deriving DecidableEq

/-- Modelled from the spec: a named sparse-assignment design matrix — row/col
name axes (the row axis of a measure matrix is unknown until measures are
added) together with cell assignments keyed by `(row-name, col-name)` and
their optional inverse-links. -/
structure DesignMatrix where
  dim1_names : Option (List String)
  dim2_names : List String
  assignments : List ((String × String) × DesignMatAssignment)
  ilinks : List ((String × String) × Option ILink)
  deriving DecidableEq

/-- Modelled from the spec: `TransitionMatrix(state_elements, state_elements)`
starts with no assignments. -/
def TransitionMatrix (dim1 dim2 : List String) : DesignMatrix :=
  { dim1_names := some dim1, dim2_names := dim2, assignments := [], ilinks := [] }

/-- Modelled from the spec: `MeasureMatrix(dim1_names=None, dim2_names=...)` —
measures are appended by later assignments. -/
def MeasureMatrix (dim1 : Option (List String)) (dim2 : List String) : DesignMatrix :=
  { dim1_names := dim1, dim2_names := dim2, assignments := [], ilinks := [] }

/-- Modelled from the spec:
`ProcessVarianceMultiplierMatrix(state_elements, dynamic_state_elements)`. -/
def ProcessVarianceMultiplierMatrix (dim1 dim2 : List String) : DesignMatrix :=
  { dim1_names := some dim1, dim2_names := dim2, assignments := [], ilinks := [] }

/-- A matrix is `empty` when it has no assignments (`transition_mat.empty`). -/
def DesignMatrix.empty (m : DesignMatrix) : Bool :=
  m.assignments.isEmpty

/-- Modelled from the spec: the distinct measure names gathered from a measure
matrix's assignments (`measure_mat.measures`). -/
def DesignMatrix.measures (m : DesignMatrix) : List String :=
  (m.assignments.map (fun e => e.1.1)).dedup

/-- Modelled from the spec: `assign` fails with `DuplicateAssignmentError` on
a re-assigned cell unless `overwrite`; with `overwrite` it replaces the prior
value. -/
def DesignMatrix.assign (m : DesignMatrix) (row col : String)
    (value : DesignMatAssignment) (overwrite : Bool) :
    Except PError DesignMatrix :=
  if ¬ overwrite ∧ m.assignments.any (fun e => decide (e.1 = (row, col))) then
    Except.error (PError.duplicate_assignment row col)
  else
    Except.ok { m with assignments :=
      m.assignments.filter (fun e => decide (e.1 ≠ (row, col))) ++ [((row, col), value)] }

/-- Modelled from the spec: `set_ilink` records the inverse-link of a cell. -/
def DesignMatrix.set_ilink (m : DesignMatrix) (row col : String)
    (il : Option ILink) : DesignMatrix :=
  { m with ilinks :=
      m.ilinks.filter (fun e => decide (e.1 ≠ (row, col))) ++ [((row, col), il)] }

/-- Modelled from the spec: `DesignMatrix.for_batch(num_groups, num_timesteps)`
materializes the batched `[groups, time, rows, cols]` tensor for the batch
shape; the cell specifications it is evaluated from are retained together with
the batch shape (parameter evaluation through inverse-links and adjustments is
outside the claims verified here). -/
structure DesignMatForBatch where
  base : DesignMatrix
  num_groups : Nat
  num_timesteps : Nat
  deriving DecidableEq

/-- Modelled from the spec: materialization of a design matrix for a batch. -/
def DesignMatrix.for_batch (m : DesignMatrix) (num_groups num_timesteps : Nat) :
    DesignMatForBatch :=
  { base := m, num_groups := num_groups, num_timesteps := num_timesteps }

/-- `Process` (`base.py` lines 18-35): id, ordered state elements, the
subclass-determined dynamic and fixed subsets (class properties in the source,
recorded here as data of the constructed instance), and the three design
matrices. -/
structure Process where
  id : String
  state_elements : List String
  dynamic_state_elements : List String
  fixed_state_elements : List String
  transition_mat : DesignMatrix
  measure_mat : DesignMatrix
  variance_multi_mat : DesignMatrix
  deriving DecidableEq

/-- `Process.measures` (lines 49-51): the measure matrix's measures. -/
def Process.measures (p : Process) : List String :=
  p.measure_mat.measures

/-- `Process._validate` (lines 138-142): duplicate state-element names raise
`ValueError`; a non-disjoint dynamic/fixed pair raises `ValueError`. -/
def Process._validate (p : Process) : Except PError Unit :=
  if p.state_elements.dedup.length ≠ p.state_elements.length then
    Except.error PError.duplicate_state_elements
  else if ¬ p.dynamic_state_elements.all (fun e => decide (e ∉ p.fixed_state_elements)) then
    Except.error PError.fixed_dynamic_overlap
  else
    Except.ok ()

/-- `Process.__init__` (lines 21-35): record id and state elements, build the
three design matrices (the variance-multiplier matrix over the dynamic state
elements), then `_validate`.  The overridable `dynamic_state_elements` /
`fixed_state_elements` properties (lines 66-78, defaults: all elements resp.
none) are supplied by the (sub)class as the `dynamic` / `fixed` arguments. -/
def Process.init (id : String) (state_elements dynamic fixed : List String) :
    Except PError Process :=
  let p : Process :=
    { id := id
      state_elements := state_elements
      dynamic_state_elements := dynamic
      fixed_state_elements := fixed
      transition_mat := TransitionMatrix state_elements state_elements
      measure_mat := MeasureMatrix none state_elements
      variance_multi_mat := ProcessVarianceMultiplierMatrix state_elements dynamic }
  match p._validate with
  | Except.error e => Except.error e
  | Except.ok _ => Except.ok p

/-- The batch-specialized process produced by `Process.for_batch`: a shallow
copy of the template whose `batch_info` is set and whose three matrices are
replaced by their materializations. -/
structure ProcessForBatch where
  id : String
  state_elements : List String
  dynamic_state_elements : List String
  fixed_state_elements : List String
  batch_info : Nat × Nat
  transition_mat : DesignMatForBatch
  measure_mat : DesignMatForBatch
  variance_multi_mat : DesignMatForBatch
  deriving DecidableEq

/-- `Process.for_batch` (lines 37-47): raise `TypeError` if the process has no
measures, then if its transition matrix is empty; otherwise take a shallow
copy of `self`, set its `batch_info` and materialize its three matrices for
the batch shape. -/
def Process.for_batch (p : Process) (num_groups num_timesteps : Nat) :
    Except PError ProcessForBatch :=
  if p.measures.isEmpty then Except.error (PError.no_measures p.id)
  else if p.transition_mat.empty then Except.error (PError.no_transitions p.id)
  else
    Except.ok
      { id := p.id
        state_elements := p.state_elements
        dynamic_state_elements := p.dynamic_state_elements
        fixed_state_elements := p.fixed_state_elements
        batch_info := (num_groups, num_timesteps)
        variance_multi_mat := p.variance_multi_mat.for_batch num_groups num_timesteps
        measure_mat := p.measure_mat.for_batch num_groups num_timesteps
        transition_mat := p.transition_mat.for_batch num_groups num_timesteps }

/-- `Process.for_batch` in receiver-state-passing form: the source method body
is `copy(self)` followed by field assignments on the copy only, so the
post-call state of the receiver is the untouched `p`; returning it makes the
frame condition of the call explicit. -/
def Process.for_batch_with_self (p : Process) (num_groups num_timesteps : Nat) :
    Except PError (ProcessForBatch × Process) :=
  match p.for_batch num_groups num_timesteps with
  | Except.error e => Except.error e
  | Except.ok q => Except.ok (q, p)

/-- `Process._set_measure` (lines 88-95): assign the cell
`(measure, state_element)` of the measure matrix and record its link. -/
def Process._set_measure (p : Process) (measure state_element : String)
    (value : DesignMatAssignment) (ilink : Option ILink) (force : Bool) :
    Except PError Process :=
  match p.measure_mat.assign measure state_element value force with
  | Except.error e => Except.error e
  | Except.ok mm =>
      Except.ok { p with measure_mat := mm.set_ilink measure state_element ilink }

/-- `Process._set_transition` (lines 109-116): assign the cell
`(from_element, to_element)` of the transition matrix and record its link. -/
def Process._set_transition (p : Process) (from_element to_element : String)
    (value : DesignMatAssignment) (ilink : Option ILink) (force : Bool) :
    Except PError Process :=
  match p.transition_mat.assign from_element to_element value force with
  | Except.error e => Except.error e
  | Except.ok tm =>
      Except.ok { p with transition_mat := tm.set_ilink from_element to_element ilink }

/-- The keyword names excluded by `Process.batch_kwargs` (line 177). -/
def excluded_kwargs : List String :=
  ["self", "num_groups", "num_timesteps", "parameters"]

/-- `Process.batch_kwargs` (lines 173-181) applied to a method signature:
the signature's parameter names with `self`, `num_groups`, `num_timesteps`
and `parameters` excluded.  A catch-all `**kwargs` appears in
`inspect.signature` as a parameter named `kwargs`. -/
def Process.batch_kwargs (params : List String) : List String :=
  params.filter (fun k => ! excluded_kwargs.contains k)

/-- Equality of keyword-name sets (`set(...) != set(...)` in line 167). -/
def kwargSetEq (a b : List String) : Bool :=
  a.all (fun x => b.contains x) && b.all (fun x => a.contains x)

/-- A subclass definition as seen by `Process.__init_subclass__`: its name,
whether it overrides `batch_kwargs`, `for_batch` and
`initial_state_means_for_batch`, and the parameter-name lists of the latter
two methods as the class resolves them (`inspect.signature`). -/
structure SubclassSpec where
  name : String
  overrides_batch_kwargs : Bool
  overrides_for_batch : Bool
  for_batch_params : List String
  overrides_init_mean : Bool
  init_mean_params : List String

/-- `Process.__init_subclass__` (lines 144-171): when `batch_kwargs` is not
overridden, compute both methods' batch-kwarg sets; an overridden `for_batch`
or `initial_state_means_for_batch` whose signature contains `kwargs` raises
`TypeError`; when both are overridden and the two sets differ, raise
`TypeError`; otherwise the subclass is defined without error. -/
def Process.init_subclass (c : SubclassSpec) : Except PError Unit :=
  if c.overrides_batch_kwargs then Except.ok ()
  else
    let bk := Process.batch_kwargs c.for_batch_params
    let imk := Process.batch_kwargs c.init_mean_params
    if c.overrides_for_batch ∧ "kwargs" ∈ bk then
      Except.error (PError.kwargs_not_explicit c.name)
    else if c.overrides_init_mean ∧ "kwargs" ∈ imk then
      Except.error (PError.kwargs_not_explicit c.name)
    else if c.overrides_for_batch ∧ c.overrides_init_mean ∧ ¬ kwargSetEq bk imk then
      Except.error (PError.signature_mismatch c.name)
    else
      Except.ok ()

/-! ### Concrete state-belief families used to evaluate the generic theorems -/

/-- A free state-belief: records which family operations were applied, and the
batch size chosen at construction.  Used to evaluate the orchestrator
theorems on concrete runs. -/
inductive TraceSB (M : Type) : Type where
  | initial (num_groups : Nat) : TraceSB M
  | update : TraceSB M → GroupObs → TraceSB M
  | predict : TraceSB M → M → M → TraceSB M
  | measured : TraceSB M → M → M → TraceSB M

/-- The batch size of a free state-belief: the one fixed at construction
(the spec's belief operations preserve the group batching). -/
def TraceSB.batch_size {M : Type} : TraceSB M → Nat
  | TraceSB.initial g => g
  | TraceSB.update b _ => b.batch_size
  | TraceSB.predict b _ _ => b.batch_size
  | TraceSB.measured b _ _ => b.batch_size

/-- The free family over `TraceSB`. -/
def traceFamily (M : Type) : Family (TraceSB M) M Unit :=
  { update := TraceSB.update
    predict := TraceSB.predict
    compute_measurement := TraceSB.measured
    batch_size := TraceSB.batch_size
    simulate := fun _ _ => () }

/-- A trivial batch design over the free family (matrices of type `Unit`). -/
def unitDesign : DesignForBatch (TraceSB Unit) Unit :=
  { F := fun _ => (), Q := fun _ => (), H := fun _ => (), R := fun _ => (),
    get_block_diag_initial_state := fun g => TraceSB.initial g }

/-- A filter over the free family with two measures. -/
def traceKF : KalmanFilter (TraceSB Unit) Unit Unit :=
  { family := traceFamily Unit, measure_size := 2,
    design_for_batch := fun _ _ => unitDesign }

/-- An empty prior result over the free family. -/
def statesU : StateBeliefOverTime (TraceSB Unit) :=
  { beliefs := [], slice_by_dt := fun _ => TraceSB.initial 0 }

/-- A `[3 groups, 2 timesteps, 2 measures]` input of zeros. -/
def wInput : Tensor3 :=
  { num_groups := 3, num_timesteps := 2, num_measures := 2, data := fun _ _ _ => 0 }

/-- The beliefs `traceKF.forward wInput none` produces. -/
def wBs : List (TraceSB Unit) :=
  [TraceSB.measured (TraceSB.initial 3) () (),
   TraceSB.measured
     (TraceSB.predict
       (TraceSB.update (TraceSB.measured (TraceSB.initial 3) () ()) (wInput.sliceAt 0))
       () ())
     () ()]

/-- A `[1 group, 2 timesteps, 2 measures]` input of zeros. -/
def w4a : Tensor3 :=
  { num_groups := 1, num_timesteps := 2, num_measures := 2, data := fun _ _ _ => 0 }

/-- Like `w4a` but with different observations at the final timestep. -/
def w4b : Tensor3 :=
  { num_groups := 1, num_timesteps := 2, num_measures := 2,
    data := fun _ t _ => if t = 1 then 5 else 0 }

/-- The beliefs `traceKF.forward w4a none` produces. -/
def w4bsA : List (TraceSB Unit) :=
  [TraceSB.measured (TraceSB.initial 1) () (),
   TraceSB.measured
     (TraceSB.predict
       (TraceSB.update (TraceSB.measured (TraceSB.initial 1) () ()) (w4a.sliceAt 0))
       () ())
     () ()]

/-- The beliefs `traceKF.forward w4b none` produces. -/
def w4bsB : List (TraceSB Unit) :=
  [TraceSB.measured (TraceSB.initial 1) () (),
   TraceSB.measured
     (TraceSB.predict
       (TraceSB.update (TraceSB.measured (TraceSB.initial 1) () ()) (w4b.sliceAt 0))
       () ())
     () ()]

/-- Modelled from the spec: a Gaussian state belief specialized to one group,
one state element and one measure (all matrices are scalars, i.e. 1×1): the
state mean and covariance, the `H`, `R` recorded by the latest
`compute_measurement`, and the attached measurement-space mean/covariance. -/
structure QSB where
  mean : ℚ
  cov : ℚ
  mHR : Option (ℚ × ℚ)
  measurement : Option (ℚ × ℚ)
  deriving DecidableEq

/-- Modelled from the spec: Gaussian `predict` — `mean' = F·mean`,
`cov' = F·cov·Fᵗ + Q`. -/
def QSB.predictQ (b : QSB) (F Q : ℚ) : QSB :=
  { mean := F * b.mean, cov := F * b.cov * F + Q, mHR := none, measurement := none }

/-- Modelled from the spec: Gaussian `compute_measurement` — attaches
`H·mean` and `H·cov·Hᵗ + R`, leaving the state mean and covariance as they
were. -/
def QSB.computeMeasurementQ (b : QSB) (H R : ℚ) : QSB :=
  { b with
    mHR := some (H, R)
    measurement := some (H * b.mean, H * b.cov * H + R) }

/-- Modelled from the spec: Gaussian `update` — Kalman-gain update with `H`,
`R` taken from the belief's already-computed measurement stage. -/
def QSB.updateQ (b : QSB) (obs : GroupObs) : QSB :=
  match b.mHR with
  | none => b
  | some hr =>
    let H := hr.1
    let R := hr.2
    let K := b.cov * H / (H * b.cov * H + R)
    { mean := b.mean + K * (obs 0 0 - H * b.mean),
      cov := (1 - K * H) * b.cov, mHR := none, measurement := none }

/-- The scalar Gaussian family. -/
def gaussian1 : Family QSB ℚ Unit :=
  { update := QSB.updateQ
    predict := QSB.predictQ
    compute_measurement := QSB.computeMeasurementQ
    batch_size := fun _ => 1
    simulate := fun _ _ => () }

/-- A scalar batch design: `F = 2`, `Q = 0`, `H = 1`, `R = 0` at every
timestep; the initial belief has mean 1 and covariance 1. -/
def qDesign : DesignForBatch QSB ℚ :=
  { F := fun _ => 2, Q := fun _ => 0, H := fun _ => 1, R := fun _ => 0,
    get_block_diag_initial_state := fun _ =>
      { mean := 1, cov := 1, mHR := none, measurement := none } }

/-- A scalar Gaussian filter with one measure. -/
def qKF : KalmanFilter QSB ℚ Unit :=
  { family := gaussian1, measure_size := 1,
    design_for_batch := fun _ _ => qDesign }

/-- A `[1 group, 1 timestep, 1 measure]` input of zeros. -/
def qInput : Tensor3 :=
  { num_groups := 1, num_timesteps := 1, num_measures := 1, data := fun _ _ _ => 0 }

/-- The single belief `qKF.forward qInput none` produces: the initial belief
with its measurement distribution attached (mean 1, covariance 1). -/
def qSeed : QSB :=
  gaussian1.compute_measurement
    { mean := 1, cov := 1, mHR := none, measurement := none }
    (qDesign.H 0) (qDesign.R 0)

/-- The prior result of the run `qKF.forward qInput none`. -/
def qStates : StateBeliefOverTime QSB :=
  { beliefs := [qSeed], slice_by_dt := fun _ => qSeed }

/-- A provided initial state for the scalar Gaussian filter. -/
def w10s0 : QSB := { mean := 1, cov := 1, mHR := none, measurement := none }

/-- A `[1 group, 2 timesteps, 1 measure]` input of zeros. -/
def w10Input : Tensor3 :=
  { num_groups := 1, num_timesteps := 2, num_measures := 1, data := fun _ _ _ => 0 }

/-- The beliefs `qKF.forward w10Input (some w10s0)` produces. -/
def w10bs : List QSB :=
  [gaussian1.compute_measurement w10s0 (qDesign.H 0) (qDesign.R 0),
   gaussian1.compute_measurement
     (gaussian1.predict
       (gaussian1.update
         (gaussian1.compute_measurement w10s0 (qDesign.H 0) (qDesign.R 0))
         (w10Input.sliceAt 0))
       (qDesign.F 0) (qDesign.Q 0))
     (qDesign.H 1) (qDesign.R 1)]

/-! ### Concrete processes and subclass specifications -/

/-- A freshly constructed process with one state element, no measures and no
transitions. -/
def p0 : Process :=
  { id := "p"
    state_elements := ["position"]
    dynamic_state_elements := ["position"]
    fixed_state_elements := []
    transition_mat := TransitionMatrix ["position"] ["position"]
    measure_mat := MeasureMatrix none ["position"]
    variance_multi_mat := ProcessVarianceMultiplierMatrix ["position"] ["position"] }

/-- `p0` after `_set_measure("y", "position", 1)`. -/
def p1 : Process :=
  { p0 with measure_mat :=
    { dim1_names := none
      dim2_names := ["position"]
      assignments := [(("y", "position"), DesignMatAssignment.constant 1)]
      ilinks := [(("y", "position"), none)] } }

/-- `p1` after `_set_transition("position", "position", 1)`. -/
def p2 : Process :=
  { p1 with transition_mat :=
    { dim1_names := some ["position"]
      dim2_names := ["position"]
      assignments := [(("position", "position"), DesignMatAssignment.constant 1)]
      ilinks := [(("position", "position"), none)] } }

/-- A subclass overriding `batch_kwargs` together with both `for_batch` and
`initial_state_means_for_batch`, the latter two with differing keyword sets:
`__init_subclass__` skips every signature check for it. -/
def cEscape : SubclassSpec :=
  { name := "Season"
    overrides_batch_kwargs := true
    overrides_for_batch := true
    for_batch_params := ["self", "num_groups", "num_timesteps", "start"]
    overrides_init_mean := true
    init_mean_params := ["self", "parameters", "num_groups", "shift"] }

/-- Like `cEscape`, but without the `batch_kwargs` override: the differing
keyword sets are rejected. -/
def cMismatch : SubclassSpec :=
  { cEscape with overrides_batch_kwargs := false }

/-- A subclass whose two overrides declare the same explicit keyword set. -/
def cGood : SubclassSpec :=
  { name := "Season"
    overrides_batch_kwargs := false
    overrides_for_batch := true
    for_batch_params := ["self", "num_groups", "num_timesteps", "start"]
    overrides_init_mean := true
    init_mean_params := ["self", "parameters", "num_groups", "start"] }

/-- The batch-specialized process `p2.for_batch 2 3` produces. -/
def q2val : ProcessForBatch :=
  { id := p2.id
    state_elements := p2.state_elements
    dynamic_state_elements := p2.dynamic_state_elements
    fixed_state_elements := p2.fixed_state_elements
    batch_info := (2, 3)
    transition_mat := p2.transition_mat.for_batch 2 3
    measure_mat := p2.measure_mat.for_batch 2 3
    variance_multi_mat := p2.variance_multi_mat.for_batch 2 3 }

/-! ### Loop characterizations -/

/-- The filtering loop, folded over `range (n+1)`, carries `beliefAt n` and
has appended `beliefAt 0, …, beliefAt n`. -/
theorem forwardStep_foldl {B M S : Type} (fam : Family B M S)
    (d : DesignForBatch B M) (input : Tensor3) (init : B) (n : Nat) :
    (List.range (n + 1)).foldl (KalmanFilter.forwardStep fam d input) (init, []) =
      (beliefAt fam d input init n,
        (List.range (n + 1)).map (beliefAt fam d input init)) := by
  induction n with
  | zero =>
      simp [KalmanFilter.forwardStep, beliefAt, List.range_succ]
  | succ n ih =>
      rw [List.range_succ, List.foldl_append, ih]
      simp [KalmanFilter.forwardStep, beliefAt, List.range_succ]

/-- `forward` on a valid input returns exactly the mapped closed-form
beliefs. -/
theorem forward_eq_map {B M S : Type} (kf : KalmanFilter B M S)
    (input : Tensor3) (initial_state : Option B)
    (hvalid : input.num_measures = kf.measure_size) :
    kf.forward input initial_state = Except.ok
      ((List.range input.num_timesteps).map
        (beliefAt kf.family (kf.design_for_batch input.num_groups input.num_timesteps)
          input (kf.forwardInit input initial_state))) := by
  unfold KalmanFilter.forward
  rw [if_neg (by simp [hvalid])]
  cases hT : input.num_timesteps with
  | zero => simp
  | succ n => simp [forwardStep_foldl]

/-- The closed-form belief at `t` depends on the input only through the
observation slices strictly before `t` (the batch dimensions being equal). -/
theorem beliefAt_congr {B M S : Type} (fam : Family B M S)
    (d : DesignForBatch B M) (input₁ input₂ : Tensor3) (init : B) (t : Nat)
    (h : ∀ s, s < t → input₁.sliceAt s = input₂.sliceAt s) :
    beliefAt fam d input₁ init t = beliefAt fam d input₂ init t := by
  induction t with
  | zero => rfl
  | succ t ih =>
      unfold beliefAt
      rw [ih (fun s hs => h s (Nat.lt_succ_of_lt hs)), h t (Nat.lt_succ_self t)]

/-- `forwardInit` depends on the input only through its batch dimensions. -/
theorem forwardInit_congr {B M S : Type} (kf : KalmanFilter B M S)
    (input₁ input₂ : Tensor3) (initial_state : Option B)
    (hg : input₁.num_groups = input₂.num_groups)
    (hT : input₁.num_timesteps = input₂.num_timesteps) :
    kf.forwardInit input₁ initial_state = kf.forwardInit input₂ initial_state := by
  unfold KalmanFilter.forwardInit
  cases initial_state with
  | none => rw [hg, hT]
  | some s => rfl

/-- The forecast loop, folded over `range (n+1)`, carries `forecastAt n` and
has appended `forecastAt 0, …, forecastAt n`. -/
theorem forecastStep_foldl {B M S : Type} (fam : Family B M S)
    (d : DesignForBatch B M) (seed : B) (n : Nat) :
    (List.range (n + 1)).foldl (KalmanFilter.forecastStep fam d) (seed, []) =
      (forecastAt fam d seed n,
        (List.range (n + 1)).map (forecastAt fam d seed)) := by
  induction n with
  | zero =>
      simp [KalmanFilter.forecastStep, forecastAt, List.range_succ]
  | succ n ih =>
      rw [List.range_succ, List.foldl_append, ih]
      simp [KalmanFilter.forecastStep, forecastAt, List.range_succ]

/-- `forecast` with a positive horizon and an available seed returns exactly
the mapped closed-form forecast beliefs. -/
theorem forecast_eq_map {B M S : Type} (kf : KalmanFilter B M S)
    (states : StateBeliefOverTime B) (horizon : Int) (seed : B)
    (hh : 0 < horizon) (hseed : states.beliefs.getLast? = some seed) :
    kf.forecast states horizon none = Except.ok
      ((List.range horizon.toNat).map
        (forecastAt kf.family
          (kf.design_for_batch (kf.family.batch_size seed) horizon.toNat) seed)) := by
  unfold KalmanFilter.forecast
  rw [if_neg (by omega)]
  simp only [StateBeliefOverTime.last_prediction, hseed]
  have h1 : ∃ n : Nat, horizon.toNat = n + 1 := by
    refine ⟨horizon.toNat - 1, ?_⟩
    omega
  obtain ⟨n, hn⟩ := h1
  rw [hn, forecastStep_foldl]

/-! ### Claims -/

/-- C1: for every valid input of `T` timesteps, `forward` builds its `t`-th
belief (for `t > 0`) by first applying `update` with the observation at index
`t-1` to the previous timestep's prediction, then applying `predict` with
`F[t-1]` and `Q[t-1]`; and for every `t` (including `t = 0`) it computes the
measurement distribution with `H[t]` and `R[t]` before appending the belief
to the output sequence (the belief at index 0 being the initial state with
its measurement distribution computed). -/
theorem forward_step_structure {B M S : Type} (kf : KalmanFilter B M S)
    (input : Tensor3) (initial_state : Option B) (bs : List B)
    (hvalid : input.num_measures = kf.measure_size)
    (hrun : kf.forward input initial_state = Except.ok bs) :
    bs.length = input.num_timesteps ∧
    (∀ t : Nat, ∀ ht : t < bs.length, ∀ ht1 : t - 1 < bs.length, 0 < t →
      bs.get ⟨t, ht⟩ =
        kf.family.compute_measurement
          (kf.family.predict
            (kf.family.update (bs.get ⟨t - 1, ht1⟩) (input.sliceAt (t - 1)))
            ((kf.design_for_batch input.num_groups input.num_timesteps).F (t - 1))
            ((kf.design_for_batch input.num_groups input.num_timesteps).Q (t - 1)))
          ((kf.design_for_batch input.num_groups input.num_timesteps).H t)
          ((kf.design_for_batch input.num_groups input.num_timesteps).R t)) ∧
    (∀ h0 : 0 < bs.length,
      bs.get ⟨0, h0⟩ =
        kf.family.compute_measurement (kf.forwardInit input initial_state)
          ((kf.design_for_batch input.num_groups input.num_timesteps).H 0)
          ((kf.design_for_batch input.num_groups input.num_timesteps).R 0)) := by
  have hmap := forward_eq_map kf input initial_state hvalid
  rw [hrun] at hmap
  have hbs : bs = (List.range input.num_timesteps).map
      (beliefAt kf.family (kf.design_for_batch input.num_groups input.num_timesteps)
        input (kf.forwardInit input initial_state)) := by
    injection hmap
  subst hbs
  refine ⟨by simp, ?_, ?_⟩
  · intro t ht ht1 ht0
    obtain ⟨k, rfl⟩ : ∃ k, t = k + 1 := ⟨t - 1, by omega⟩
    simp only [List.get_eq_getElem, List.getElem_map, List.getElem_range,
      Nat.add_sub_cancel]
    rfl
  · intro h0
    simp only [List.get_eq_getElem, List.getElem_map, List.getElem_range]
    rfl

/-- C1 witness: the theorem evaluated on a concrete two-timestep run of the
free family. -/
theorem forward_step_structure_witness :
    traceKF.forward wInput none = Except.ok wBs ∧
    wBs.length = wInput.num_timesteps :=
  ⟨rfl, (forward_step_structure traceKF wInput none wBs rfl rfl).1⟩

/-- A successful `forward` run implies the input passed the measures check. -/
theorem forward_ok_valid {B M S : Type} (kf : KalmanFilter B M S)
    (input : Tensor3) (initial_state : Option B) (bs : List B)
    (h : kf.forward input initial_state = Except.ok bs) :
    input.num_measures = kf.measure_size := by
  by_contra hne
  unfold KalmanFilter.forward at h
  rw [if_pos hne] at h
  exact absurd h (by simp)

/-- C4: for two input tensors of the same shape that agree on all
observations at timesteps strictly before `t` (with the same initial state
and kwargs), `forward` returns identical beliefs at index `t`; and two inputs
agreeing everywhere except possibly at the final timestep produce identical
output sequences — the observation at the final timestep never affects any
returned belief. -/
theorem forward_noninterference {B M S : Type} (kf : KalmanFilter B M S)
    (input₁ input₂ : Tensor3) (initial_state : Option B) (bs₁ bs₂ : List B)
    (hg : input₁.num_groups = input₂.num_groups)
    (hT : input₁.num_timesteps = input₂.num_timesteps)
    (h₁ : kf.forward input₁ initial_state = Except.ok bs₁)
    (h₂ : kf.forward input₂ initial_state = Except.ok bs₂) :
    (∀ t : Nat,
      (∀ s, s < t → ∀ g m, input₁.data g s m = input₂.data g s m) →
      ∀ ht₁ : t < bs₁.length, ∀ ht₂ : t < bs₂.length,
        bs₁.get ⟨t, ht₁⟩ = bs₂.get ⟨t, ht₂⟩) ∧
    ((∀ s, s + 1 < input₁.num_timesteps → ∀ g m, input₁.data g s m = input₂.data g s m) →
      bs₁ = bs₂) := by
  have hv₁ := forward_ok_valid kf input₁ initial_state bs₁ h₁
  have hv₂ := forward_ok_valid kf input₂ initial_state bs₂ h₂
  have hm₁ := forward_eq_map kf input₁ initial_state hv₁
  have hm₂ := forward_eq_map kf input₂ initial_state hv₂
  rw [h₁] at hm₁
  rw [h₂] at hm₂
  have hbs₁ : bs₁ = (List.range input₁.num_timesteps).map
      (beliefAt kf.family (kf.design_for_batch input₁.num_groups input₁.num_timesteps)
        input₁ (kf.forwardInit input₁ initial_state)) := by injection hm₁
  have hbs₂ : bs₂ = (List.range input₂.num_timesteps).map
      (beliefAt kf.family (kf.design_for_batch input₂.num_groups input₂.num_timesteps)
        input₂ (kf.forwardInit input₂ initial_state)) := by injection hm₂
  have hd : kf.design_for_batch input₂.num_groups input₂.num_timesteps =
      kf.design_for_batch input₁.num_groups input₁.num_timesteps := by
    rw [hg, hT]
  have hi := forwardInit_congr kf input₁ input₂ initial_state hg hT
  rw [hd, ← hi, ← hT] at hbs₂
  subst hbs₁
  subst hbs₂
  constructor
  · intro t hagree ht₁ ht₂
    simp only [List.get_eq_getElem, List.getElem_map, List.getElem_range]
    exact beliefAt_congr kf.family _ input₁ input₂ _ t
      (fun s hs => funext fun g => funext fun m => hagree s hs g m)
  · intro hagree
    refine List.map_congr_left ?_
    intro t hmem
    have htlt : t < input₁.num_timesteps := List.mem_range.mp hmem
    exact beliefAt_congr kf.family _ input₁ input₂ _ t
      (fun s hs => funext fun g => funext fun m => hagree s (by omega) g m)

/-- C4 witness: two concrete inputs differing only at the final timestep
produce identical outputs. -/
theorem forward_noninterference_witness :
    traceKF.forward w4a none = Except.ok w4bsA ∧
    traceKF.forward w4b none = Except.ok w4bsB ∧
    w4bsA = w4bsB :=
  ⟨rfl, rfl,
    (forward_noninterference traceKF w4a w4b none w4bsA w4bsB rfl rfl rfl rfl).2
      (by
        intro s hs g m
        have hs2 : s + 1 < 2 := hs
        have h0 : s = 0 := by omega
        subst h0
        rfl)⟩

/-- C3: `forward` raises the dimension-mismatch error exactly when the input's
measures dimension differs from the design's measure count; on a matching
input it returns `num_timesteps` beliefs, each batched over `num_groups`
groups (given that the family's operations preserve the batch size and the
initial state is batched over `num_groups`). -/
theorem forward_shape_check {B M S : Type} (kf : KalmanFilter B M S)
    (input : Tensor3) (initial_state : Option B)
    (hu : ∀ b o, kf.family.batch_size (kf.family.update b o) = kf.family.batch_size b)
    (hp : ∀ b F Q, kf.family.batch_size (kf.family.predict b F Q) = kf.family.batch_size b)
    (hc : ∀ b H R, kf.family.batch_size (kf.family.compute_measurement b H R) =
      kf.family.batch_size b)
    (hinit : kf.family.batch_size (kf.forwardInit input initial_state) = input.num_groups) :
    (kf.forward input initial_state = Except.error
        (KFError.value_error kf.measure_size
          (input.num_groups, input.num_timesteps, input.num_measures)) ↔
      input.num_measures ≠ kf.measure_size) ∧
    (input.num_measures = kf.measure_size →
      ∃ bs, kf.forward input initial_state = Except.ok bs ∧
        bs.length = input.num_timesteps ∧
        ∀ b ∈ bs, kf.family.batch_size b = input.num_groups) := by
  constructor
  · constructor
    · intro herr
      by_contra heq
      rw [forward_eq_map kf input initial_state heq] at herr
      exact absurd herr (by simp)
    · intro hne
      unfold KalmanFilter.forward
      rw [if_pos hne]
  · intro heq
    refine ⟨_, forward_eq_map kf input initial_state heq, by simp, ?_⟩
    have key : ∀ t, kf.family.batch_size
        (beliefAt kf.family (kf.design_for_batch input.num_groups input.num_timesteps)
          input (kf.forwardInit input initial_state) t) = input.num_groups := by
      intro t
      induction t with
      | zero => rw [beliefAt, hc, hinit]
      | succ t ih => rw [beliefAt, hc, hp, hu, ih]
    intro b hb
    obtain ⟨t, _, rfl⟩ := List.mem_map.mp hb
    exact key t

/-- C3 witness: the theorem evaluated on the free family. -/
theorem forward_shape_check_witness :
    ∃ bs, traceKF.forward wInput none = Except.ok bs ∧
      bs.length = wInput.num_timesteps ∧
      ∀ b ∈ bs, traceKF.family.batch_size b = wInput.num_groups :=
  (forward_shape_check traceKF wInput none (fun _ _ => rfl) (fun _ _ _ => rfl)
    (fun _ _ _ => rfl) rfl).2 rfl

/-- C10: `forward` with a provided initial state `s` over at least one
timestep emits, at index 0, exactly `s` with its measurement distribution
computed — same mean and covariance as `s`, no predict and no update applied —
and the observation at timestep 0 is first consumed by the update performed
at timestep 1. -/
theorem forward_initial_state_seeding {B M S V W : Type} (kf : KalmanFilter B M S)
    (input : Tensor3) (s : B) (bs : List B) (mean : B → V) (cov : B → W)
    (hmean : ∀ b H R, mean (kf.family.compute_measurement b H R) = mean b)
    (hcov : ∀ b H R, cov (kf.family.compute_measurement b H R) = cov b)
    (hT : 1 ≤ input.num_timesteps)
    (hrun : kf.forward input (some s) = Except.ok bs) :
    0 < bs.length ∧
    (∀ h0 : 0 < bs.length,
      bs.get ⟨0, h0⟩ =
        kf.family.compute_measurement s
          ((kf.design_for_batch input.num_groups input.num_timesteps).H 0)
          ((kf.design_for_batch input.num_groups input.num_timesteps).R 0) ∧
      mean (bs.get ⟨0, h0⟩) = mean s ∧ cov (bs.get ⟨0, h0⟩) = cov s) ∧
    (∀ h1 : 1 < bs.length, ∀ h0 : 0 < bs.length,
      bs.get ⟨1, h1⟩ =
        kf.family.compute_measurement
          (kf.family.predict
            (kf.family.update (bs.get ⟨0, h0⟩) (input.sliceAt 0))
            ((kf.design_for_batch input.num_groups input.num_timesteps).F 0)
            ((kf.design_for_batch input.num_groups input.num_timesteps).Q 0))
          ((kf.design_for_batch input.num_groups input.num_timesteps).H 1)
          ((kf.design_for_batch input.num_groups input.num_timesteps).R 1)) := by
  have hv := forward_ok_valid kf input (some s) bs hrun
  have hmap := forward_eq_map kf input (some s) hv
  rw [hrun] at hmap
  have hbs : bs = (List.range input.num_timesteps).map
      (beliefAt kf.family (kf.design_for_batch input.num_groups input.num_timesteps)
        input (kf.forwardInit input (some s))) := by injection hmap
  subst hbs
  refine ⟨by simpa using hT, ?_, ?_⟩
  · intro h0
    simp only [List.get_eq_getElem, List.getElem_map, List.getElem_range]
    refine ⟨rfl, ?_, ?_⟩
    · exact hmean s _ _
    · exact hcov s _ _
  · intro h1 h0
    simp only [List.get_eq_getElem, List.getElem_map, List.getElem_range]
    rfl

/-- C10 witness: the theorem evaluated on a concrete scalar Gaussian run with
a provided initial state. -/
theorem forward_initial_state_seeding_witness :
    qKF.forward w10Input (some w10s0) = Except.ok w10bs ∧ 0 < w10bs.length :=
  ⟨rfl,
    (forward_initial_state_seeding qKF w10Input w10s0 w10bs QSB.mean QSB.cov
      (fun _ _ _ => rfl) (fun _ _ _ => rfl) (by decide) rfl).1⟩

/-- C2 (amended): for every forward result and every horizon `h > 0`,
`forecast(states, horizon=h)` returns exactly `h` beliefs; the first returned
belief is the seed itself — the last belief of the forward result, with its
measurement distribution recomputed and its state mean unchanged, no predict
step applied — and each subsequent belief applies one predict step (with `F`
and `Q`, no update) to its predecessor. -/
theorem forecast_length_and_seed {B M S V : Type} (kf : KalmanFilter B M S)
    (input : Tensor3) (initial_state : Option B) (states : StateBeliefOverTime B)
    (horizon : Int) (seed : B) (mean : B → V)
    (hmean : ∀ b H R, mean (kf.family.compute_measurement b H R) = mean b)
    (_hfwd : kf.forward input initial_state = Except.ok states.beliefs)
    (hseed : states.beliefs.getLast? = some seed)
    (hh : 0 < horizon) :
    ∃ fs, kf.forecast states horizon none = Except.ok fs ∧
      fs.length = horizon.toNat ∧
      (∀ h0 : 0 < fs.length,
        fs.get ⟨0, h0⟩ =
          kf.family.compute_measurement seed
            ((kf.design_for_batch (kf.family.batch_size seed) horizon.toNat).H 0)
            ((kf.design_for_batch (kf.family.batch_size seed) horizon.toNat).R 0) ∧
        mean (fs.get ⟨0, h0⟩) = mean seed) ∧
      (∀ t : Nat, ∀ ht1 : t + 1 < fs.length, ∀ ht : t < fs.length,
        fs.get ⟨t + 1, ht1⟩ =
          kf.family.compute_measurement
            (kf.family.predict (fs.get ⟨t, ht⟩)
              ((kf.design_for_batch (kf.family.batch_size seed) horizon.toNat).F t)
              ((kf.design_for_batch (kf.family.batch_size seed) horizon.toNat).Q t))
            ((kf.design_for_batch (kf.family.batch_size seed) horizon.toNat).H (t + 1))
            ((kf.design_for_batch (kf.family.batch_size seed) horizon.toNat).R (t + 1))) := by
  refine ⟨_, forecast_eq_map kf states horizon seed hh hseed, by simp, ?_, ?_⟩
  · intro h0
    simp only [List.get_eq_getElem, List.getElem_map, List.getElem_range]
    exact ⟨rfl, hmean seed _ _⟩
  · intro t ht1 ht
    simp only [List.get_eq_getElem, List.getElem_map, List.getElem_range]
    rfl

/-- C2 witness: the amended theorem evaluated on the concrete scalar Gaussian
run. -/
theorem forecast_length_and_seed_witness :
    qKF.forward qInput none = Except.ok qStates.beliefs ∧
    (∃ fs, qKF.forecast qStates 1 none = Except.ok fs ∧
      fs.length = (1 : Int).toNat) := by
  refine ⟨rfl, ?_⟩
  obtain ⟨fs, h1, h2, _⟩ := forecast_length_and_seed qKF qInput none qStates 1 qSeed
    QSB.mean (fun _ _ _ => rfl) rfl rfl (by decide)
  exact ⟨fs, h1, h2⟩

/-- C2 counterexample: from the one-timestep forward run `qKF.forward qInput`,
`forecast` with horizon 1 returns as its first belief the seed itself, whose
mean is 1, while one predict step (with `F = 2`, `Q = 0`, no update) from the
last forward belief has mean 2: the first returned belief's mean is not the
mean obtained by one predict step from the last forward belief. -/
theorem forecast_first_mean_counterexample :
    qKF.forward qInput none = Except.ok qStates.beliefs ∧
    qKF.forecast qStates 1 none =
      Except.ok [gaussian1.compute_measurement qSeed (qDesign.H 0) (qDesign.R 0)] ∧
    QSB.mean (gaussian1.compute_measurement qSeed (qDesign.H 0) (qDesign.R 0)) = 1 ∧
    QSB.mean (gaussian1.predict qSeed (qDesign.F 0) (qDesign.Q 0)) = 2 ∧
    (1 : ℚ) ≠ 2 := by
  refine ⟨rfl, rfl, rfl, ?_, by norm_num⟩
  show (2 : ℚ) * 1 = 2
  norm_num

/-- C8: `forecast` and `simulate` both fail their `assert horizon > 0` (and
return nothing else) for every horizon ≤ 0, before any batch design or belief
is produced; for every horizon > 0 the assertion passes and neither call
returns the assertion failure. -/
theorem horizon_assertion {B M S : Type} (kf : KalmanFilter B M S)
    (states : StateBeliefOverTime B) (horizon : Int) (dts : Option (List Nat)) :
    (horizon ≤ 0 →
      kf.forecast states horizon dts = Except.error KFError.assertion_error ∧
      kf.simulate states horizon dts = Except.error KFError.assertion_error) ∧
    (0 < horizon →
      kf.forecast states horizon dts ≠ Except.error KFError.assertion_error ∧
      kf.simulate states horizon dts ≠ Except.error KFError.assertion_error) := by
  constructor
  · intro h
    constructor
    · unfold KalmanFilter.forecast
      rw [if_pos h]
    · unfold KalmanFilter.simulate
      rw [if_pos h]
  · intro h
    constructor
    · unfold KalmanFilter.forecast
      rw [if_neg (by omega)]
      cases dts with
      | some d => simp
      | none =>
          cases hlp : states.last_prediction with
          | none => simp [hlp]
          | some sp => simp [hlp]
    · unfold KalmanFilter.simulate
      rw [if_neg (by omega)]
      cases dts with
      | some d => simp
      | none =>
          cases hlp : states.last_prediction with
          | none => simp [hlp]
          | some sp => simp [hlp]

/-- C8 witness: concrete horizons 0 and -1 fail the assertion; horizon 1 does
not produce the assertion failure. -/
theorem horizon_assertion_witness :
    (traceKF.forecast statesU 0 none = Except.error KFError.assertion_error ∧
      traceKF.simulate statesU 0 none = Except.error KFError.assertion_error) ∧
    (traceKF.forecast statesU (-1) none = Except.error KFError.assertion_error ∧
      traceKF.simulate statesU (-1) none = Except.error KFError.assertion_error) ∧
    (traceKF.forecast statesU 1 none ≠ Except.error KFError.assertion_error) :=
  ⟨(horizon_assertion traceKF statesU 0 none).1 (by decide),
   (horizon_assertion traceKF statesU (-1) none).1 (by decide),
   ((horizon_assertion traceKF statesU 1 none).2 (by decide)).1⟩

/-! ### Process lemmas -/

/-- A design matrix with at least one assignment has a nonempty measures
list. -/
theorem measures_isEmpty_false (mm : DesignMatrix) (hne : mm.assignments ≠ []) :
    mm.measures.isEmpty = false := by
  unfold DesignMatrix.measures
  cases hassign : mm.assignments with
  | nil => exact absurd hassign hne
  | cons a l =>
      have hmem : a.1.1 ∈ ((a :: l).map (fun e => e.1.1)).dedup := by
        rw [List.mem_dedup]
        exact List.mem_map_of_mem _ (List.mem_cons_self a l)
      cases hd : ((a :: l).map (fun e => e.1.1)).dedup with
      | nil =>
          rw [hd] at hmem
          exact absurd hmem (List.not_mem_nil _)
      | cons b lb => rfl

/-- A design matrix with at least one assignment is not `empty`. -/
theorem empty_false_of_ne_nil (mm : DesignMatrix) (hne : mm.assignments ≠ []) :
    mm.empty = false := by
  unfold DesignMatrix.empty
  cases h : mm.assignments with
  | nil => exact absurd h hne
  | cons a l => rfl

/-- A successful `_set_measure` appends the assigned cell to the measure
matrix and leaves the transition matrix untouched. -/
theorem set_measure_ok_fields (p p' : Process) (m se : String)
    (v : DesignMatAssignment) (il : Option ILink) (f : Bool)
    (h : p._set_measure m se v il f = Except.ok p') :
    p'.measure_mat.assignments =
      p.measure_mat.assignments.filter (fun e => decide (e.1 ≠ (m, se))) ++ [((m, se), v)] ∧
    p'.transition_mat = p.transition_mat := by
  unfold Process._set_measure at h
  cases hassign : DesignMatrix.assign p.measure_mat m se v f with
  | error e =>
      rw [hassign] at h
      exact absurd h (by simp)
  | ok mm =>
      rw [hassign] at h
      injection h with h'
      subst h'
      unfold DesignMatrix.assign at hassign
      split at hassign
      · exact absurd hassign (by simp)
      · injection hassign with h2
        subst h2
        exact ⟨rfl, rfl⟩

/-- A successful `_set_transition` appends the assigned cell to the
transition matrix and leaves the measure matrix untouched. -/
theorem set_transition_ok_fields (p p' : Process) (fe te : String)
    (v : DesignMatAssignment) (il : Option ILink) (f : Bool)
    (h : p._set_transition fe te v il f = Except.ok p') :
    p'.transition_mat.assignments =
      p.transition_mat.assignments.filter (fun e => decide (e.1 ≠ (fe, te))) ++ [((fe, te), v)] ∧
    p'.measure_mat = p.measure_mat := by
  unfold Process._set_transition at h
  cases hassign : DesignMatrix.assign p.transition_mat fe te v f with
  | error e =>
      rw [hassign] at h
      exact absurd h (by simp)
  | ok tm =>
      rw [hassign] at h
      injection h with h'
      subst h'
      unfold DesignMatrix.assign at hassign
      split at hassign
      · exact absurd hassign (by simp)
      · injection hassign with h2
        subst h2
        exact ⟨rfl, rfl⟩

/-- C5: `for_batch` fails with a structural error when the process has no
registered measures or its transition matrix is empty; with at least one
measure and at least one transition it succeeds; in particular, after a
`_set_measure` and a `_set_transition`, the identical `for_batch` call
succeeds and returns a batch-specialized process. -/
theorem for_batch_structural (p p₁ p₂ : Process) (g t : Nat)
    (m se fe te : String) (v₁ v₂ : DesignMatAssignment)
    (il₁ il₂ : Option ILink) (f₁ f₂ : Bool) :
    (p.measures.isEmpty = true ∨ p.transition_mat.empty = true →
      ∃ e, p.for_batch g t = Except.error e) ∧
    (p.measures.isEmpty = false → p.transition_mat.empty = false →
      ∃ q, p.for_batch g t = Except.ok q) ∧
    (p._set_measure m se v₁ il₁ f₁ = Except.ok p₁ →
      p₁._set_transition fe te v₂ il₂ f₂ = Except.ok p₂ →
      ∃ q, p₂.for_batch g t = Except.ok q) := by
  refine ⟨?_, ?_, ?_⟩
  · intro h
    by_cases hm : p.measures.isEmpty = true
    · refine ⟨PError.no_measures p.id, ?_⟩
      unfold Process.for_batch
      rw [if_pos hm]
    · have ht2 : p.transition_mat.empty = true := by
        rcases h with h | h
        · exact absurd h hm
        · exact h
      refine ⟨PError.no_transitions p.id, ?_⟩
      unfold Process.for_batch
      rw [if_neg hm, if_pos ht2]
  · intro hm ht2
    refine ⟨{ id := p.id
              state_elements := p.state_elements
              dynamic_state_elements := p.dynamic_state_elements
              fixed_state_elements := p.fixed_state_elements
              batch_info := (g, t)
              transition_mat := p.transition_mat.for_batch g t
              measure_mat := p.measure_mat.for_batch g t
              variance_multi_mat := p.variance_multi_mat.for_batch g t }, ?_⟩
    unfold Process.for_batch
    rw [if_neg (by simp [hm]), if_neg (by simp [ht2])]
  · intro h1 h2
    obtain ⟨ha1, ht1⟩ := set_measure_ok_fields p p₁ m se v₁ il₁ f₁ h1
    obtain ⟨ha2, hm2⟩ := set_transition_ok_fields p₁ p₂ fe te v₂ il₂ f₂ h2
    have hmeas : p₂.measures.isEmpty = false := by
      unfold Process.measures
      apply measures_isEmpty_false
      rw [hm2, ha1]
      simp
    have htrans : p₂.transition_mat.empty = false := by
      apply empty_false_of_ne_nil
      rw [ha2]
      simp
    refine ⟨{ id := p₂.id
              state_elements := p₂.state_elements
              dynamic_state_elements := p₂.dynamic_state_elements
              fixed_state_elements := p₂.fixed_state_elements
              batch_info := (g, t)
              transition_mat := p₂.transition_mat.for_batch g t
              measure_mat := p₂.measure_mat.for_batch g t
              variance_multi_mat := p₂.variance_multi_mat.for_batch g t }, ?_⟩
    unfold Process.for_batch
    rw [if_neg (by simp [hmeas]), if_neg (by simp [htrans])]

/-- C5 witness: a process with no measures fails `for_batch`; after
registering one measure and one transition the identical call succeeds. -/
theorem for_batch_structural_witness :
    p0.measures.isEmpty = true ∧
    p0._set_measure ("y") ("position") (DesignMatAssignment.constant 1) none false =
      Except.ok p1 ∧
    p1._set_transition ("position") ("position") (DesignMatAssignment.constant 1) none false =
      Except.ok p2 ∧
    (∃ e, p0.for_batch 2 3 = Except.error e) ∧
    (∃ q, p2.for_batch 2 3 = Except.ok q) :=
  ⟨rfl, rfl, rfl,
    (for_batch_structural p0 p1 p2 2 3 ("y") ("position") ("position") ("position")
      (DesignMatAssignment.constant 1) (DesignMatAssignment.constant 1)
      none none false false).1 (Or.inl rfl),
    (for_batch_structural p0 p1 p2 2 3 ("y") ("position") ("position") ("position")
      (DesignMatAssignment.constant 1) (DesignMatAssignment.constant 1)
      none none false false).2.2 rfl rfl⟩

/-- C6: a successful `for_batch` returns a batch-specialized shallow copy —
same id and state-element structure, `batch_info` set to the batch shape, and
all three design matrices materialized for that shape — while the original
process is left unchanged by the call. -/
theorem for_batch_shallow_copy (p : Process) (g t : Nat) (q : ProcessForBatch)
    (p' : Process) (h : p.for_batch_with_self g t = Except.ok (q, p')) :
    q.id = p.id ∧ q.state_elements = p.state_elements ∧
    q.dynamic_state_elements = p.dynamic_state_elements ∧
    q.fixed_state_elements = p.fixed_state_elements ∧
    q.batch_info = (g, t) ∧
    q.transition_mat = p.transition_mat.for_batch g t ∧
    q.measure_mat = p.measure_mat.for_batch g t ∧
    q.variance_multi_mat = p.variance_multi_mat.for_batch g t ∧
    p' = p := by
  unfold Process.for_batch_with_self at h
  cases hfb : p.for_batch g t with
  | error e =>
      rw [hfb] at h
      exact absurd h (by simp)
  | ok q0 =>
      rw [hfb] at h
      injection h with h'
      injection h' with hq hp
      subst hq
      subst hp
      unfold Process.for_batch at hfb
      split at hfb
      · exact absurd hfb (by simp)
      · split at hfb
        · exact absurd hfb (by simp)
        · injection hfb with h3
          subst h3
          exact ⟨rfl, rfl, rfl, rfl, rfl, rfl, rfl, rfl, rfl⟩

/-- C6 witness: the concrete batch-specialization of `p2`. -/
theorem for_batch_shallow_copy_witness :
    p2.for_batch_with_self 2 3 = Except.ok (q2val, p2) ∧
    q2val.batch_info = (2, 3) := by
  have h := for_batch_shallow_copy p2 2 3 q2val p2 rfl
  exact ⟨rfl, h.2.2.2.2.1⟩

/-- `_validate` fails when the state elements contain a duplicate or the
dynamic and fixed sets intersect. -/
theorem validate_error_of (p : Process)
    (h : ¬ p.state_elements.Nodup ∨
      ∃ e ∈ p.dynamic_state_elements, e ∈ p.fixed_state_elements) :
    ∃ err, p._validate = Except.error err := by
  unfold Process._validate
  by_cases h1 : p.state_elements.dedup.length ≠ p.state_elements.length
  · refine ⟨PError.duplicate_state_elements, ?_⟩
    rw [if_pos h1]
  · have hlen : p.state_elements.dedup.length = p.state_elements.length := by omega
    have hnodup : p.state_elements.Nodup :=
      List.dedup_eq_self.mp (List.Sublist.eq_of_length (List.dedup_sublist _) hlen)
    have h2 : ∃ e ∈ p.dynamic_state_elements, e ∈ p.fixed_state_elements := by
      rcases h with h | h
      · exact absurd hnodup h
      · exact h
    have hcond : ¬ p.dynamic_state_elements.all
        (fun e => decide (e ∉ p.fixed_state_elements)) = true := by
      intro hall
      obtain ⟨e, he, hef⟩ := h2
      have hd := List.all_eq_true.mp hall e he
      rw [decide_eq_true_eq] at hd
      exact hd hef
    refine ⟨PError.fixed_dynamic_overlap, ?_⟩
    rw [if_neg h1, if_pos hcond]

/-- `_validate` succeeds on unique state elements with disjoint dynamic and
fixed sets. -/
theorem validate_ok_of (p : Process) (h1 : p.state_elements.Nodup)
    (h2 : ∀ e ∈ p.dynamic_state_elements, e ∉ p.fixed_state_elements) :
    p._validate = Except.ok () := by
  unfold Process._validate
  have c1 : ¬ (p.state_elements.dedup.length ≠ p.state_elements.length) := by
    rw [List.dedup_eq_self.mpr h1]
    exact fun hc => hc rfl
  have c2 : ¬ ¬ p.dynamic_state_elements.all
      (fun e => decide (e ∉ p.fixed_state_elements)) = true := by
    rw [not_not]
    exact List.all_eq_true.mpr (fun e he => decide_eq_true (h2 e he))
  rw [if_neg c1, if_neg c2]

/-- C7: process construction raises a structural error when the state-element
sequence contains a duplicate name or the dynamic and fixed state-element
sets intersect; otherwise it succeeds, and the constructed process satisfies
both invariants (unique state-element names, dynamic and fixed disjoint). -/
theorem process_init_validation (pid : String) (ses dyn fix : List String) :
    ((¬ ses.Nodup ∨ ∃ e ∈ dyn, e ∈ fix) →
      ∃ err, Process.init pid ses dyn fix = Except.error err) ∧
    (ses.Nodup → (∀ e ∈ dyn, e ∉ fix) →
      ∃ p, Process.init pid ses dyn fix = Except.ok p ∧
        p.state_elements.Nodup ∧
        ∀ e ∈ p.dynamic_state_elements, e ∉ p.fixed_state_elements) := by
  constructor
  · intro h
    obtain ⟨err, herr⟩ := validate_error_of
      { id := pid
        state_elements := ses
        dynamic_state_elements := dyn
        fixed_state_elements := fix
        transition_mat := TransitionMatrix ses ses
        measure_mat := MeasureMatrix none ses
        variance_multi_mat := ProcessVarianceMultiplierMatrix ses dyn }
      (by exact h)
    refine ⟨err, ?_⟩
    unfold Process.init
    simp only [herr]
  · intro h1 h2
    have hok := validate_ok_of
      { id := pid
        state_elements := ses
        dynamic_state_elements := dyn
        fixed_state_elements := fix
        transition_mat := TransitionMatrix ses ses
        measure_mat := MeasureMatrix none ses
        variance_multi_mat := ProcessVarianceMultiplierMatrix ses dyn }
      (by exact h1) (by exact h2)
    refine ⟨{ id := pid
              state_elements := ses
              dynamic_state_elements := dyn
              fixed_state_elements := fix
              transition_mat := TransitionMatrix ses ses
              measure_mat := MeasureMatrix none ses
              variance_multi_mat := ProcessVarianceMultiplierMatrix ses dyn },
            ?_, ?_, ?_⟩
    · unfold Process.init
      simp only [hok]
    · exact h1
    · exact h2

/-- C7 witness: a duplicate state element is rejected; a unique one is
accepted with the invariants holding. -/
theorem process_init_validation_witness :
    (∃ err, Process.init ("p") ["a", "a"] ["a", "a"] [] = Except.error err) ∧
    (∃ p, Process.init ("p") ["a"] ["a"] [] = Except.ok p ∧
      p.state_elements.Nodup ∧
      ∀ e ∈ p.dynamic_state_elements, e ∉ p.fixed_state_elements) :=
  ⟨(process_init_validation ("p") ["a", "a"] ["a", "a"] []).1 (Or.inl (by decide)),
   (process_init_validation ("p") ["a"] ["a"] []).2 (by decide) (by decide)⟩

/-- C9 (amended): for every Process subclass that overrides both `for_batch`
and `initial_state_means_for_batch` and does not override `batch_kwargs`,
subclass definition fails with a structural error exactly when the two
overrides' keyword-argument sets (excluding self, num_groups, num_timesteps,
parameters) differ or either signature declares a catch-all `kwargs`; a
subclass whose signatures match (with explicit keywords) is defined without
error. -/
theorem init_subclass_signature_check (c : SubclassSpec)
    (hb : c.overrides_batch_kwargs = false)
    (hf : c.overrides_for_batch = true)
    (hi : c.overrides_init_mean = true) :
    (∃ e, Process.init_subclass c = Except.error e) ↔
      ("kwargs" ∈ Process.batch_kwargs c.for_batch_params ∨
       "kwargs" ∈ Process.batch_kwargs c.init_mean_params ∨
       kwargSetEq (Process.batch_kwargs c.for_batch_params)
         (Process.batch_kwargs c.init_mean_params) = false) := by
  unfold Process.init_subclass
  rw [if_neg (by simp [hb])]
  by_cases h1 : "kwargs" ∈ Process.batch_kwargs c.for_batch_params
  · rw [if_pos (by exact ⟨hf, h1⟩)]
    simp [h1]
  · rw [if_neg (by intro hcon; exact h1 hcon.2)]
    by_cases h2 : "kwargs" ∈ Process.batch_kwargs c.init_mean_params
    · rw [if_pos (by exact ⟨hi, h2⟩)]
      simp [h2]
    · rw [if_neg (by intro hcon; exact h2 hcon.2)]
      by_cases h3 : kwargSetEq (Process.batch_kwargs c.for_batch_params)
          (Process.batch_kwargs c.init_mean_params) = true
      · rw [if_neg (by intro hcon; exact hcon.2.2 h3)]
        simp [h1, h2, h3]
      · rw [if_pos (by exact ⟨hf, hi, h3⟩)]
        have h3f : kwargSetEq (Process.batch_kwargs c.for_batch_params)
            (Process.batch_kwargs c.init_mean_params) = false := by
          revert h3
          cases kwargSetEq (Process.batch_kwargs c.for_batch_params)
            (Process.batch_kwargs c.init_mean_params) <;> simp
        simp [h1, h2, h3f]

/-- C9 witness: matching explicit signatures are defined without error;
differing ones (without a `batch_kwargs` override) are rejected. -/
theorem init_subclass_signature_check_witness :
    (¬ ∃ e, Process.init_subclass cGood = Except.error e) ∧
    (∃ e, Process.init_subclass cMismatch = Except.error e) :=
  ⟨(not_congr (init_subclass_signature_check cGood rfl rfl rfl)).mpr (by decide),
   (init_subclass_signature_check cMismatch rfl rfl rfl).mpr
     (Or.inr (Or.inr (by decide)))⟩

/-- C9 counterexample: `cEscape` overrides both `for_batch` and
`initial_state_means_for_batch` with differing keyword-argument sets, yet —
because it also overrides `batch_kwargs` — `__init_subclass__` defines it
without any error. -/
theorem init_subclass_escape_counterexample :
    cEscape.overrides_for_batch = true ∧
    cEscape.overrides_init_mean = true ∧
    kwargSetEq (Process.batch_kwargs cEscape.for_batch_params)
      (Process.batch_kwargs cEscape.init_mean_params) = false ∧
    Process.init_subclass cEscape = Except.ok () := by
  exact ⟨rfl, rfl, by decide, rfl⟩

end TorchKalman
